import Mathlib

/-
Verification of the etcd-backed IPAM reservation store
(plugins/ipam/host-etcd/backend/etcd/backend.go).

The etcd key space is modelled as an association list from key strings
to value strings, unique keys being the well-formedness condition (etcd
keys are unique).  Each store operation issued to etcd (Put / Get /
Delete) can fail at the network level; each Go method is embedded as a
Lean function that, besides the store state, takes explicit success
flags (or the set of keys whose deletion fails) for the etcd calls it
performs, mirroring the Go control flow exactly.

An IP address argument is modelled by its canonical text form (the Go
code only ever uses `ip.String()`).  The Go string helpers the code
relies on (`strings.TrimSpace`, prefix matching for
`clientv3.WithPrefix()`, and the decimal-field scan of `net.ParseIP`)
are embedded as structurally recursive functions over the character
list of the string, so that every definition evaluates inside the
kernel.
-/

namespace HostEtcd

/-- The White_Space code points recognised by Go `unicode.IsSpace`. -/
def goIsSpace (c : Char) : Bool :=
  (9 ≤ c.toNat && c.toNat ≤ 13) || c.toNat == 32 || c.toNat == 133 ||
    c.toNat == 160 || c.toNat == 5760 ||
    (8192 ≤ c.toNat && c.toNat ≤ 8202) || c.toNat == 8232 ||
    c.toNat == 8233 || c.toNat == 8239 || c.toNat == 8287 ||
    c.toNat == 12288

/-- Drops the leading whitespace characters of a character list. -/
def dropSpace : List Char → List Char
  | [] => []
  | c :: cs => if goIsSpace c then dropSpace cs else c :: cs

/-- Model of Go `strings.TrimSpace`: removes leading and trailing
white-space characters. -/
def goTrimSpace (s : String) : String :=
  ⟨dropSpace ((dropSpace s.data.reverse).reverse)⟩

/-- Prefix test on character lists. -/
def hasPfxChars : List Char → List Char → Bool
  | [], _ => true
  | _ :: _, [] => false
  | a :: as, b :: bs => a == b && hasPfxChars as bs

/-- Model of the key-prefix test performed server-side by an etcd range
request with `clientv3.WithPrefix()`. -/
def goHasPfx (pfx s : String) : Bool := hasPfxChars pfx.data s.data

/-- State of the etcd key space: one key/value entry per pair. -/
abbrev KVState := List (String × String)

/-- Point read, modelling `clientv3.KV.Get` on a single key:
the value of the entry whose key matches. -/
def kvGet (st : KVState) (k : String) : Option String :=
  (st.find? (fun p => p.1 == k)).map (fun p => p.2)

/-- Write, modelling `clientv3.KV.Put`: replaces any entry with that key. -/
def kvPut (st : KVState) (k v : String) : KVState :=
  st.filter (fun p => p.1 != k) ++ [(k, v)]

/-- Deletion, modelling `clientv3.KV.Delete`: removes the entry with that
key; deleting an absent key leaves the state unchanged. -/
def kvDelete (st : KVState) (k : String) : KVState :=
  st.filter (fun p => p.1 != k)

/-- Range read, modelling `clientv3.KV.Get` with `clientv3.WithPrefix()`:
all entries whose key starts with the given prefix. -/
def kvGetRange (st : KVState) (pfx : String) : KVState :=
  st.filter (fun p => goHasPfx pfx p.1)

/-- Key of the reservation entry for an address:
`"/ipam/ips/" + ip.String()` (backend.go line 102). -/
def ipsKey (ip : String) : String := "/ipam/ips/" ++ ip

/-- Key of the last-allocated marker for a range:
`"/ipam/last_reserved_ip" + rangeID` (backend.go line 109),
the range identifier appended verbatim. -/
def lastReservedKey (rangeID : String) : String :=
  "/ipam/last_reserved_ip" ++ rangeID

/-- An IPv4 address as four octets. -/
abbrev IPv4 := Nat × Nat × Nat × Nat

/-- Value of a decimal digit character, `none` on a non-digit. -/
def digitVal (c : Char) : Option Nat :=
  if 48 ≤ c.toNat && c.toNat ≤ 57 then some (c.toNat - 48) else none

/-- Decimal scan over a character list, accumulator style, as in Go
`dtoi`; fails on the first non-digit. -/
def parseDecAux : Nat → List Char → Option Nat
  | acc, [] => some acc
  | acc, c :: cs =>
    match digitVal c with
    | some d => parseDecAux (acc * 10 + d) cs
    | none => none

/-- A whole decimal number: non-empty and all digits. -/
def goParseDec (l : List Char) : Option Nat :=
  match l with
  | [] => none
  | l => parseDecAux 0 l

/-- Splits a character list at every dot. -/
def splitDot : List Char → List (List Char)
  | [] => [[]]
  | c :: cs =>
    if c == '.' then [] :: splitDot cs
    else
      match splitDot cs with
      | [] => [[c]]
      | f :: rest => (c :: f) :: rest

/-- One dotted-decimal field of an IPv4 address: a non-empty digit run
whose value is at most 255, as in Go `net.ParseIP`. -/
def parseIPv4Field (l : List Char) : Option Nat :=
  match goParseDec l with
  | some n => if n ≤ 255 then some n else none
  | none => none

/-- Model of Go `net.ParseIP` on dotted-decimal IPv4 text: `none`
exactly when the text is not a well-formed address (Go returns a nil
`net.IP`).  IPv6 textual forms are not modelled; nothing here produces
them. -/
def parseIP (s : String) : Option IPv4 :=
  match splitDot s.data with
  | [a, b, c, d] =>
    match parseIPv4Field a, parseIPv4Field b, parseIPv4Field c, parseIPv4Field d with
    | some a', some b', some c', some d' => some (a', b', c', d')
    | _, _, _, _ => none
  | _ => none

/-- The constructed store handle, `Store{mutex, kv}` in the Go code: the
mutex is derived from the fixed lock name, the kv handle carries no data
in the model. -/
structure Store where
  lockKey : String
  deriving Repr, DecidableEq

/-- Embedding of `New(network, endPoints)` (backend.go lines 49-85).
`dialOk` models success of `clientv3.New`, `sessionOk` success of
`concurrency.NewSession`; the `network` argument is unused by the Go
code.  An empty endpoint list is rejected before any connection is
attempted. -/
def New (network : String) (endPoints : List String)
    (dialOk sessionOk : Bool) : Except String Store :=
  if endPoints.length = 0 then
    Except.error "No available endpoints for etcd client"
  else if dialOk = false then
    Except.error "etcd dial failed"
  else if sessionOk = false then
    Except.error "etcd session failed"
  else
    Except.ok { lockKey := "/ipam/lock" }

/-- Embedding of `Store.Reserve(id, ip, rangeID)` (backend.go lines
100-114).  Result is (claimed, error, new state).  `ipPutOk` models
success of the Put of the reservation key, `markerPutOk` of the Put of
the last-allocated marker.  Faithful to the Go code: the first Put is
unconditional (no compare-and-swap), and when it fails the method
returns `(false, nil)` — the Put error itself is dropped; when the
second Put fails the method returns `(false, err)` without rolling back
the first write. -/
def Reserve (st : KVState) (ipPutOk markerPutOk : Bool)
    (id ip rangeID : String) : Bool × Option String × KVState :=
  if ipPutOk = false then
    (false, none, st)
  else
    let st1 := kvPut st (ipsKey ip) (goTrimSpace id)
    if markerPutOk = false then
      (false, some "etcd put failed", st1)
    else
      (true, none, kvPut st1 (lastReservedKey rangeID) ip)

/-- Embedding of `Store.LastReservedIP(rangeID)` (backend.go lines
117-127).  Result is (address, error).  `getOk` models success of the
Get.  When the key is absent the Go code returns `(nil, nil)`; otherwise
it returns `(net.ParseIP(value), nil)` — also when the value fails to
parse, in which case `net.ParseIP` yields nil. -/
def LastReservedIP (st : KVState) (getOk : Bool)
    (rangeID : String) : Option IPv4 × Option String :=
  if getOk = false then
    (none, some "etcd get failed")
  else
    match kvGet st (lastReservedKey rangeID) with
    | none => (none, none)
    | some v => (parseIP v, none)

/-- Embedding of `Store.Release(ip)` (backend.go lines 129-132): one
unconditional Delete of the reservation key; `delOk` models success of
the Delete. -/
def Release (st : KVState) (delOk : Bool) (ip : String) : Option String × KVState :=
  if delOk = false then
    (some "etcd delete failed", st)
  else
    (none, kvDelete st (ipsKey ip))

/-- Loop of `Store.ReleaseByID` (backend.go lines 141-148) over the
snapshot returned by the prefix Get.  `delFails` is the set of keys
whose Delete fails.  Faithful to the Go code: each entry whose trimmed
value equals the trimmed id has its trimmed key deleted, and a Delete
error is returned immediately, abandoning the rest of the snapshot. -/
def releaseLoop (st : KVState) (delFails : List String) (idT : String) :
    KVState → Option String × KVState
  | [] => (none, st)
  | (k, v) :: rest =>
    if goTrimSpace v == idT then
      if delFails.contains (goTrimSpace k) then
        (some "etcd delete failed", st)
      else
        releaseLoop (kvDelete st (goTrimSpace k)) delFails idT rest
    else
      releaseLoop st delFails idT rest

/-- Embedding of `Store.ReleaseByID(id)` (backend.go lines 136-150):
prefix Get of `"/ipam/ips/"`, then the deletion loop over the returned
snapshot.  `getOk` models success of the prefix Get. -/
def ReleaseByID (st : KVState) (getOk : Bool) (delFails : List String)
    (id : String) : Option String × KVState :=
  if getOk = false then
    (some "etcd get failed", st)
  else
    releaseLoop st delFails (goTrimSpace id) (kvGetRange st "/ipam/ips/")

/-- Keys of the snapshot entries whose trimmed value equals the given
trimmed id: the keys `ReleaseByID` tries to delete. -/
def matchKeys (l : KVState) (idT : String) : List String :=
  (l.filter (fun p => goTrimSpace p.2 == idT)).map (fun p => p.1)

/-- Reading back the key just written yields the written value. -/
theorem kvGet_kvPut_self (st : KVState) (k v : String) :
    kvGet (kvPut st k v) k = some v := by
  have hnone : (st.filter (fun p => p.1 != k)).find? (fun p => p.1 == k) = none := by
    rw [List.find?_eq_none]
    intro x hx
    have := (List.mem_filter.mp hx).2
    simp_all
  simp [kvGet, kvPut, List.find?_append, hnone]

/-- A point read of a key passes unchanged through a filter that only
removes a different key. -/
theorem find?_filter_ne (st : KVState) (k k' : String) (h : k' ≠ k) :
    (st.filter (fun p => p.1 != k)).find? (fun p => p.1 == k')
      = st.find? (fun p => p.1 == k') := by
  have hkk : (k == k') = false := by
    simp
    exact fun hh => h hh.symm
  induction st with
  | nil => simp
  | cons p t ih =>
    by_cases hpk : p.1 = k
    · simp [List.filter_cons, List.find?_cons, hpk, hkk, ih]
    · by_cases hpk' : p.1 = k'
      · simp [List.filter_cons, List.find?_cons, hpk, hpk', h, ih]
      · simp [List.filter_cons, List.find?_cons, hpk, hpk', h, ih]

/-- Writing one key leaves the value read at any other key unchanged. -/
theorem kvGet_kvPut_of_ne (st : KVState) (k v k' : String) (h : k' ≠ k) :
    kvGet (kvPut st k v) k' = kvGet st k' := by
  simp only [kvGet, kvPut, List.find?_append]
  have h2 : List.find? (fun p => p.1 == k') [(k, v)] = none := by
    simp [Ne.symm h]
  rw [h2, find?_filter_ne st k k' h, Option.or_none]

/-- Deleting the key just written restores the deletion of the original
state: a Put touches no other entry. -/
theorem kvDelete_kvPut_self (st : KVState) (k v : String) :
    kvDelete (kvPut st k v) k = kvDelete st k := by
  simp [kvDelete, kvPut, List.filter_append, List.filter_filter]

/-- A reservation key and a last-allocated-marker key never coincide:
the two namespaces differ right after the fixed root. -/
theorem ipsKey_ne_lastReservedKey (ip r : String) :
    ipsKey ip ≠ lastReservedKey r := by
  intro h
  have h2 : (ipsKey ip).data = (lastReservedKey r).data := by rw [h]
  simp [ipsKey, lastReservedKey, String.data_append] at h2

/-- Unfolding of `matchKeys` over the head of a snapshot. -/
theorem matchKeys_cons (k v : String) (rest : KVState) (idT : String) :
    matchKeys ((k, v) :: rest) idT
      = if goTrimSpace v == idT then k :: matchKeys rest idT
        else matchKeys rest idT := by
  simp only [matchKeys, List.filter_cons]
  split <;> simp_all [matchKeys]

/-- When no deletion fails and every snapshot key is already trimmed,
the `ReleaseByID` loop reports no error and removes from the state
exactly the keys of the matching snapshot entries. -/
theorem releaseLoop_noFail (idT : String) (l : KVState) :
    (∀ p ∈ l, goTrimSpace p.1 = p.1) →
    ∀ st : KVState,
      releaseLoop st [] idT l
        = (none, st.filter (fun p => !((matchKeys l idT).contains p.1))) := by
  induction l with
  | nil =>
    intro _ st
    simp [releaseLoop, matchKeys]
  | cons hd tl ih =>
    intro hkeys st
    obtain ⟨k, v⟩ := hd
    have hk : goTrimSpace k = k := hkeys (k, v) (List.mem_cons_self _ _)
    have htl : ∀ p ∈ tl, goTrimSpace p.1 = p.1 := fun p hp =>
      hkeys p (List.mem_cons_of_mem _ hp)
    by_cases hm : (goTrimSpace v == idT) = true
    · have hstep : releaseLoop st [] idT ((k, v) :: tl)
          = releaseLoop (kvDelete st k) [] idT tl := by
        simp [releaseLoop, hm, hk]
      rw [hstep, ih htl (kvDelete st k), matchKeys_cons, if_pos hm]
      refine congrArg (fun s => ((none : Option String), s)) ?_
      rw [kvDelete, List.filter_filter]
      apply List.filter_congr
      intro p _
      by_cases hpk : p.1 = k <;>
        simp [hpk, List.contains_cons, Bool.not_or, Bool.and_comm, bne]
    · have hstep : releaseLoop st [] idT ((k, v) :: tl)
          = releaseLoop st [] idT tl := by
        simp [releaseLoop, hm]
      rw [hstep, ih htl st, matchKeys_cons, if_neg hm]

/-- Membership in `matchKeys`: the key of some snapshot entry whose
trimmed value is the trimmed id. -/
theorem contains_matchKeys (l : KVState) (idT : String) (x : String) :
    (matchKeys l idT).contains x = true ↔
      ∃ q ∈ l, q.1 = x ∧ (goTrimSpace q.2 == idT) = true := by
  simp only [matchKeys, List.contains_iff_exists_mem_beq]
  constructor
  · rintro ⟨b, hb, hxb⟩
    obtain ⟨q, hq, hq1⟩ := List.mem_map.mp hb
    obtain ⟨hql, hqv⟩ := List.mem_filter.mp hq
    exact ⟨q, hql, by simp_all [beq_iff_eq], hqv⟩
  · rintro ⟨q, hql, hq1, hqv⟩
    exact ⟨x, List.mem_map.mpr ⟨q, List.mem_filter.mpr ⟨hql, hqv⟩, hq1⟩, by simp⟩

/-- C1: the claim that after a successful `Reserve(id, ip, r)` a second
`Reserve(id2, ip, r)` returns `false` fails on the code: the Put of the
reservation key is unconditional, so the second call also returns
`true` and silently overwrites the owner with the second container id
(backend.go line 102, `// TODO: txn`). -/
theorem reserve_overwrite_divergence :
    (Reserve [] true true "containerA" "10.0.0.5" "eth0").1 = true ∧
    (Reserve (Reserve [] true true "containerA" "10.0.0.5" "eth0").2.2
        true true "containerB" "10.0.0.5" "eth0").1 = true ∧
    kvGet (Reserve (Reserve [] true true "containerA" "10.0.0.5" "eth0").2.2
        true true "containerB" "10.0.0.5" "eth0").2.2 (ipsKey "10.0.0.5")
      = some "containerB" := by decide

/-- C2: the claim that `ReleaseByID` keeps attempting the remaining
matching keys after one deletion fails does not hold of the code: with
two reservations owned by "c1" and the deletion of the first one
failing, the call returns the error immediately and the state is
untouched — the second matching key, whose deletion would have
succeeded (it is not in the failing set), is still present.  This
contradicts the function's own comment, "eats errors to be tolerant and
release as much as possible" (backend.go lines 134-135 versus 145). -/
theorem releaseByID_abort_divergence :
    ReleaseByID [(ipsKey "10.0.0.5", "c1"), (ipsKey "10.0.0.6", "c1")] true
        [ipsKey "10.0.0.5"] "c1"
      = (some "etcd delete failed",
          [(ipsKey "10.0.0.5", "c1"), (ipsKey "10.0.0.6", "c1")]) ∧
    ([ipsKey "10.0.0.5"].contains (ipsKey "10.0.0.6")) = false := by decide

/-- C3 counterexample: with the marker key for range "eth0" present but
holding the unparsable value "notanip", `LastReservedIP` returns no
error (second component `none`) and a nil address — exactly the
"no prior address" result the claim says it must not return, and no
StoreError. -/
theorem lastReservedIP_unparsable_counterexample :
    (LastReservedIP [(lastReservedKey "eth0", "notanip")] true "eth0").2 = none ∧
    (LastReservedIP [(lastReservedKey "eth0", "notanip")] true "eth0").1 = none := by decide

/-- C3 amended: when the stored marker value fails to parse as an
address, `LastReservedIP` returns a nil address with a nil error —
indistinguishable from the absent-key "no prior address" result — and
not a StoreError (the code returns `net.ParseIP(value), nil`
unconditionally, backend.go line 126). -/
theorem lastReservedIP_unparsable (st : KVState) (r v : String)
    (h1 : kvGet st (lastReservedKey r) = some v) (h2 : parseIP v = none) :
    LastReservedIP st true r = (none, none) := by
  simp [LastReservedIP, h1, h2]

/-- Witness for C3 amended at a concrete corrupted state. -/
theorem lastReservedIP_unparsable_witness :
    kvGet [(lastReservedKey "eth0", "notanip")] (lastReservedKey "eth0")
        = some "notanip" ∧
    parseIP "notanip" = none ∧
    LastReservedIP [(lastReservedKey "eth0", "notanip")] true "eth0" = (none, none) :=
  ⟨by decide, by decide,
    lastReservedIP_unparsable _ "eth0" "notanip" (by decide) (by decide)⟩

/-- C4: the claim that a failed write of the reservation key surfaces
as a non-nil error fails on the code: for every state and every input,
when the reservation Put fails `Reserve` returns `false` with a nil
error — the branch at backend.go lines 102-106 reads
`return false, nil`, dropping `err`, while the parallel marker branch
returns its error. -/
theorem reserve_put_error_swallowed (st : KVState) (markerPutOk : Bool)
    (id ip r : String) :
    Reserve st false markerPutOk id ip r = (false, none, st) := rfl

/-- C5: when the reservation Put succeeds and the marker Put then
fails, the reservation entry for the address is present in the
resulting state with the trimmed container id as value, and the state
agrees with the original everywhere else (removing that one key from
both sides yields identical states): the marker failure does not roll
back the reservation. -/
theorem reserve_marker_failure_keeps_reservation (st : KVState) (id ip r : String) :
    kvGet (Reserve st true false id ip r).2.2 (ipsKey ip) = some (goTrimSpace id) ∧
    kvDelete (Reserve st true false id ip r).2.2 (ipsKey ip)
      = kvDelete st (ipsKey ip) := by
  have hst : (Reserve st true false id ip r).2.2
      = kvPut st (ipsKey ip) (goTrimSpace id) := rfl
  rw [hst]
  exact ⟨kvGet_kvPut_self _ _ _, kvDelete_kvPut_self _ _ _⟩

/-- C6 counterexample: the claim fails for a store state containing a
reservation key with trailing whitespace.  With entries
`"/ipam/ips/1.2.3.4 " ↦ "c1"` and `"/ipam/ips/1.2.3.4" ↦ "c2"` and no
failing deletion, `ReleaseByID("c1")` deletes the trimmed key — the
entry owned by "c2" — and leaves the matching "c1" entry in place,
violating both halves of the claim (the code deletes
`strings.TrimSpace(item.Key)`, backend.go line 143, not the key it
matched). -/
theorem releaseByID_untrimmed_key_counterexample :
    goTrimSpace "c1" = "c1" ∧
    goTrimSpace ("/ipam/ips/1.2.3.4 ") ≠ "/ipam/ips/1.2.3.4 " ∧
    ReleaseByID [("/ipam/ips/1.2.3.4 ", "c1"), ("/ipam/ips/1.2.3.4", "c2")] true [] "c1"
      = (none, [("/ipam/ips/1.2.3.4 ", "c1")]) := by decide

/-- C6 amended: for every store state with unique keys whose
reservation-namespace keys are already whitespace-trimmed (which is
true of every key `Reserve` writes) and in which no deletion fails,
`ReleaseByID(id)` returns no error — also when id owns zero
reservations — and the resulting state is the original minus exactly
those entries whose key lies under `"/ipam/ips/"` and whose trimmed
value equals the trimmed id; every other entry, including every
last-allocated marker, is unchanged. -/
theorem releaseByID_exact (st : KVState) (id : String)
    (hkeys : ∀ p ∈ st, goHasPfx "/ipam/ips/" p.1 = true → goTrimSpace p.1 = p.1)
    (hnodup : (st.map Prod.fst).Nodup) :
    ReleaseByID st true [] id
      = (none, st.filter
          (fun p => !(goHasPfx "/ipam/ips/" p.1
            && (goTrimSpace p.2 == goTrimSpace id)))) := by
  have hsnap : ∀ p ∈ kvGetRange st "/ipam/ips/", goTrimSpace p.1 = p.1 := by
    intro p hp
    have h2 := List.mem_filter.mp hp
    exact hkeys p h2.1 h2.2
  have h1 : ReleaseByID st true [] id
      = releaseLoop st [] (goTrimSpace id) (kvGetRange st "/ipam/ips/") := by
    simp [ReleaseByID]
  rw [h1, releaseLoop_noFail _ _ hsnap st]
  refine congrArg (fun s => ((none : Option String), s)) ?_
  apply List.filter_congr
  intro p hp
  have hiff : (matchKeys (kvGetRange st "/ipam/ips/") (goTrimSpace id)).contains p.1
        = true ↔
      (goHasPfx "/ipam/ips/" p.1 && (goTrimSpace p.2 == goTrimSpace id)) = true := by
    rw [contains_matchKeys]
    constructor
    · rintro ⟨q, hql, hq1, hqv⟩
      have hqmem := List.mem_filter.mp hql
      have hqe : q = p := List.inj_on_of_nodup_map hnodup hqmem.1 hp hq1
      subst hqe
      simp [hqmem.2, hqv]
    · intro h
      have h2 := Bool.and_elim_left h
      have h3 := Bool.and_elim_right h
      exact ⟨p, List.mem_filter.mpr ⟨hp, h2⟩, rfl, h3⟩
  cases hc : (matchKeys (kvGetRange st "/ipam/ips/") (goTrimSpace id)).contains p.1 <;>
    cases hd : (goHasPfx "/ipam/ips/" p.1 && (goTrimSpace p.2 == goTrimSpace id)) <;>
      simp_all

/-- Witness for C6 amended: two reservations owned by "c1" and "c2" and
one marker; releasing "c1" removes exactly the "c1" reservation. -/
theorem releaseByID_exact_witness :
    ReleaseByID [(ipsKey "10.0.0.5", "c1"), (ipsKey "10.0.0.7", "c2"),
        (lastReservedKey "eth0", "10.0.0.7")] true [] "c1"
      = (none, [(ipsKey "10.0.0.7", "c2"), (lastReservedKey "eth0", "10.0.0.7")]) := by
  have h := releaseByID_exact
    [(ipsKey "10.0.0.5", "c1"), (ipsKey "10.0.0.7", "c2"),
      (lastReservedKey "eth0", "10.0.0.7")] "c1" (by decide) (by decide)
  rw [h]
  decide

/-- C7: `Release` is idempotent.  For every state — including one where
the address was never reserved — the call returns no error, a second
immediate call also returns no error, and the state after the second
call equals the state after the first (the code is one unconditional
Delete, backend.go lines 129-132). -/
theorem release_idempotent (st : KVState) (ip : String) :
    (Release st true ip).1 = none ∧
    (Release (Release st true ip).2 true ip).1 = none ∧
    (Release (Release st true ip).2 true ip).2 = (Release st true ip).2 := by
  refine ⟨rfl, rfl, ?_⟩
  show kvDelete (kvDelete st (ipsKey ip)) (ipsKey ip) = kvDelete st (ipsKey ip)
  simp [kvDelete, List.filter_filter]

/-- C8: when the last-allocated marker key for the range is absent, the
Get succeeds with zero kvs and `LastReservedIP` returns a nil address
and a nil error — the "no prior address" result, never a StoreError
(backend.go lines 122-125). -/
theorem lastReservedIP_fresh_range (st : KVState) (r : String)
    (h : kvGet st (lastReservedKey r) = none) :
    LastReservedIP st true r = (none, none) := by
  simp [LastReservedIP, h]

/-- Witness for C8 at the empty (fresh) store state. -/
theorem lastReservedIP_fresh_range_witness :
    kvGet [] (lastReservedKey "eth0") = none ∧
    LastReservedIP [] true "eth0" = (none, none) :=
  ⟨by decide, lastReservedIP_fresh_range [] "eth0" (by decide)⟩

/-- C9: a successful `Reserve` stores the whitespace-trimmed container
id under the key `"/ipam/ips/" + ip` (fixed root, `ips/` segment,
canonical address text) and the address text under the key
`"/ipam/last_reserved_ip" + rangeID`, the range identifier appended
verbatim with no hashing (backend.go lines 102 and 109). -/
theorem reserve_key_layout (st : KVState) (id ip r : String) :
    ipsKey ip = "/ipam/ips/" ++ ip ∧
    lastReservedKey r = "/ipam/last_reserved_ip" ++ r ∧
    kvGet (Reserve st true true id ip r).2.2 (ipsKey ip) = some (goTrimSpace id) ∧
    kvGet (Reserve st true true id ip r).2.2 (lastReservedKey r) = some ip := by
  have hst : (Reserve st true true id ip r).2.2
      = kvPut (kvPut st (ipsKey ip) (goTrimSpace id)) (lastReservedKey r) ip := rfl
  refine ⟨rfl, rfl, ?_, ?_⟩
  · rw [hst, kvGet_kvPut_of_ne _ _ _ _ (ipsKey_ne_lastReservedKey ip r),
      kvGet_kvPut_self]
  · rw [hst, kvGet_kvPut_self]

/-- C10: `New` with an empty endpoint list fails with the
empty-endpoints error before constructing anything, and with a
non-empty endpoint list that branch is never taken — whatever the
outcome of dialling and session creation, the result is never the
empty-endpoints error (backend.go lines 50-52). -/
theorem new_requires_endpoints (network : String) (eps : List String)
    (dialOk sessionOk : Bool) :
    New network [] dialOk sessionOk
      = Except.error "No available endpoints for etcd client" ∧
    (eps ≠ [] →
      New network eps dialOk sessionOk
        ≠ Except.error "No available endpoints for etcd client") := by
  constructor
  · simp [New]
  · intro h
    have hlen : ¬ eps.length = 0 := by simpa using h
    cases dialOk <;> cases sessionOk <;> simp [New, hlen]

/-- Witness for C10 at a concrete endpoint list. -/
theorem new_requires_endpoints_witness :
    (["127.0.0.1:2379"] : List String) ≠ [] ∧
    New "mynet" ["127.0.0.1:2379"] true true
      ≠ Except.error "No available endpoints for etcd client" :=
  ⟨by decide,
    (new_requires_endpoints "mynet" ["127.0.0.1:2379"] true true).2 (by decide)⟩

end HostEtcd
